import Mathlib

/-!
Verification of the opendkim Go binding and of the DKIM engine it drives.

The repository under scrutiny is a thin cgo binding (src/dkim.go) around
libopendkim: the canonicalization, streaming digest, signature codec,
signer, verifier and session state machine live in the host library and
are described by the specification; the Go file contributes the
one-step Sign/Verify helpers, the handle lifecycle (Destroy) and the
raw-pointer marshalling of Header/Body.  Definitions below therefore come
in two groups: direct embeddings of the Go code in src/dkim.go, and
engine definitions modelled from the specification where the deciding
code is not part of the repository.

Byte strings are modelled as lists of characters (`Str`); the mail data
handled by the engine is ASCII, so a character stands for one byte.
-/

namespace OpenDkim

abbrev Str := List Char

/-- CRLF line terminator. -/
def crlf : Str := ['\r', '\n']

/-! ## Constants from src/dkim.go -/

/-- Status code from src/dkim.go: function completed successfully. -/
def StatusOK : Int := 0

/-- Status code from src/dkim.go: signature available but failed. -/
def StatusBADSIG : Int := 1

/-- Status code from src/dkim.go: no signature available. -/
def StatusNOSIG : Int := 2

/-- Status code from src/dkim.go: public key not found. -/
def StatusNOKEY : Int := 3

/-- Canonicalization mode constants from src/dkim.go. -/
def CanonSIMPLE : Int := 0

/-- Relaxed canonicalization mode, from src/dkim.go. -/
def CanonRELAXED : Int := 1

/-- Signing algorithm constant from src/dkim.go: RSA-signed SHA1 digest. -/
def SignRSASHA1 : Int := 0

/-- Signing algorithm constant from src/dkim.go: RSA-signed SHA256 digest. -/
def SignRSASHA256 : Int := 1

/-- Signature flag bit from src/dkim.go. -/
def SigflagIGNORE : Nat := 0x01

/-- Signature flag bit from src/dkim.go. -/
def SigflagPROCESSED : Nat := 0x02

/-- Signature flag bit from src/dkim.go. -/
def SigflagPASSED : Nat := 0x04

/-- Signature flag bit from src/dkim.go. -/
def SigflagTESTKEY : Nat := 0x08

/-- Signature flag bit from src/dkim.go. -/
def SigflagNOSUBDOMAIN : Nat := 0x10

/-- Signature flag bit from src/dkim.go. -/
def SigflagKEYLOADED : Nat := 0x20

/-! ## Canonicalizer (spec section 4.1) -/

/-- Horizontal whitespace: space or tab. -/
def isWSP (c : Char) : Bool := c == ' ' || c == '\t'

/-- Worker for `collapseWSP`: the flag records whether the previous
character was horizontal whitespace (so that a run emits one space). -/
def collapseGo : Bool → Str → Str
  | _, [] => []
  | prevWS, c :: rest =>
    if isWSP c then
      if prevWS then collapseGo true rest
      else ' ' :: collapseGo true rest
    else c :: collapseGo false rest

/-- Modelled from the spec: collapse every run of horizontal whitespace
to one space (relaxed canonicalization; the canonicalizer itself is in
libopendkim, not under src/). -/
def collapseWSP (s : Str) : Str := collapseGo false s

/-- Drop leading horizontal whitespace. -/
def trimLeftWSP (s : Str) : Str := s.dropWhile isWSP

/-- Drop trailing horizontal whitespace. -/
def trimRightWSP (s : Str) : Str := (s.reverse.dropWhile isWSP).reverse

/-- Drop horizontal whitespace on both ends. -/
def trimWSP (s : Str) : Str := trimLeftWSP (trimRightWSP s)

/-- Lowercase every character. -/
def toLowerStr (s : Str) : Str := s.map Char.toLower

/-- Remove one trailing CRLF, if present. -/
def stripCRLF (s : Str) : Str :=
  match s.reverse with
  | '\n' :: '\r' :: rest => rest.reverse
  | _ => s

/-- Split a header line at its first colon into field name and value. -/
def splitAtColon : Str → Option (Str × Str)
  | [] => none
  | c :: rest =>
    if c = ':' then some ([], rest)
    else
      match splitAtColon rest with
      | some (n, v) => some (c :: n, v)
      | none => none

/-- Remove line-continuation CRLF pairs inside a header value, leaving
the following whitespace to be collapsed. -/
def unfoldFWS : Str → Str
  | [] => []
  | '\r' :: '\n' :: rest => unfoldFWS rest
  | c :: rest => c :: unfoldFWS rest

/-- Modelled from the spec: relaxed header canonicalization (the
canonicalizer is in libopendkim, not under src/).  Lowercase the field
name, remove whitespace before the first colon, unfold continuations,
collapse whitespace runs in the value to one space, strip
leading/trailing value whitespace, terminate with CRLF. -/
def relaxedHeader (line : Str) : Str :=
  let l := stripCRLF line
  match splitAtColon l with
  | some (n, v) =>
    toLowerStr (trimRightWSP n) ++ ':' :: (trimWSP (collapseWSP (unfoldFWS v)) ++ crlf)
  | none => l ++ crlf

/-- Modelled from the spec: simple header canonicalization (in
libopendkim, not under src/): the line passes through unchanged except
that the terminator is normalized to CRLF. -/
def simpleHeader (line : Str) : Str := stripCRLF line ++ crlf

/-- Split a body into its lines, cutting at each CRLF.  A final segment
after the last CRLF (possibly empty) is kept. -/
def splitCRLF : Str → List Str
  | [] => [[]]
  | '\r' :: '\n' :: rest => [] :: splitCRLF rest
  | c :: rest =>
    match splitCRLF rest with
    | l :: ls => (c :: l) :: ls
    | [] => [[c]]

/-- Drop the trailing fully-empty lines of a body. -/
def dropTrailingEmpty (ls : List Str) : List Str :=
  (ls.reverse.dropWhile List.isEmpty).reverse

/-- Re-emit canonical lines, each terminated by CRLF. -/
def emitLines (ls : List Str) : Str := (ls.map (fun l => l ++ crlf)).flatten

/-- Modelled from the spec: simple body canonicalization (in
libopendkim, not under src/): CRLF endings enforced, trailing
fully-empty lines removed; an all-empty body canonicalizes to the empty
string. -/
def simpleBody (b : Str) : Str := emitLines (dropTrailingEmpty (splitCRLF b))

/-- Relaxed canonicalization of one body line: collapse whitespace runs
and strip trailing whitespace. -/
def relaxedBodyLine (l : Str) : Str := trimRightWSP (collapseWSP l)

/-- Modelled from the spec: relaxed body canonicalization (in
libopendkim, not under src/): per line collapse whitespace runs to one
space and strip trailing whitespace, then drop trailing empty lines as
in simple mode. -/
def relaxedBody (b : Str) : Str :=
  emitLines (dropTrailingEmpty ((splitCRLF b).map relaxedBodyLine))

/-- Body canonicalization dispatch on the src/dkim.go mode constants. -/
def canonBody (mode : Int) (b : Str) : Str :=
  if mode = CanonRELAXED then relaxedBody b else simpleBody b

/-- Header canonicalization dispatch on the src/dkim.go mode constants. -/
def canonHeader (mode : Int) (line : Str) : Str :=
  if mode = CanonRELAXED then relaxedHeader line else simpleHeader line

/-- Sanity check from the spec's testable properties: relaxed body
canonicalization on its worked example. -/
theorem relaxedBody_spec_example :
    relaxedBody (("a  b \r\nc\t\r\n\r\n").toList) = ("a b\r\nc\r\n").toList := by decide

/-! ## Streaming digest accumulator (spec section 4.2)

The digest and asymmetric-signature primitives are out of scope for the
specification (black boxes); the model instantiates the digest with the
identity encoding on canonical bytes and the signature with a key-tagged
encoding, which preserves exactly the equalities the engine relies on. -/

/-- Modelled from the spec: the input actually hashed for the body —
the canonical body, truncated to the signed-byte limit when the limit is
non-negative (`-1` means unbounded, as in src/dkim.go NewSigner).  The
limit counts canonical bytes, not raw input bytes. -/
def bodyHashInput (mode limit : Int) (b : Str) : Str :=
  let c := canonBody mode b
  if limit < 0 then c else c.take limit.toNat

/-- Modelled from the spec: the black-box digest primitive, instantiated
with the identity encoding. -/
def digest (s : Str) : Str := s

/-- Modelled from the spec: the black-box asymmetric-sign primitive,
instantiated with a key-tagged encoding of the signed data. -/
def mkSig (key data : Str) : Str := key ++ '|' :: data

/-- Modelled from the spec: the black-box asymmetric-verify primitive,
which accepts exactly the signatures produced by `mkSig` with the same
key over the same data. -/
def verifySig (key data sigBytes : Str) : Bool := sigBytes == mkSig key data

/-! ## Signature header (spec sections 3 and 4.3) -/

/-- Modelled from the spec: a SignatureHeader descriptor — version,
algorithm, canon modes, domain, selector, timestamps, ordered signed
header names (repeats allowed), optional body-length limit (negative
means absent, matching the src/dkim.go bytesToSign convention), body
hash and signature value.  Constructed by the signer or parsed by the
verifier; immutable once constructed. -/
structure SignatureHeader where
  version : Str
  algo : Int
  hdrCanon : Int
  bodyCanon : Int
  domain : Str
  selector : Str
  timestamp : Nat
  expiration : Option Nat
  signedHeaders : List Str
  bodyLimit : Int
  bodyHash : Str
  sigValue : Str
deriving DecidableEq

/-- Decimal digit character. -/
def digitChar (d : Nat) : Char := Char.ofNat (48 + d)

/-- Fuelled decimal rendering worker. -/
def natToStrAux : Nat → Nat → Str
  | 0, _ => []
  | fuel + 1, n =>
    if n < 10 then [digitChar n]
    else natToStrAux fuel (n / 10) ++ [digitChar (n % 10)]

/-- Render a natural number in decimal. -/
def natToStr (n : Nat) : Str := natToStrAux (n + 1) n

/-- Join a list of strings with a separator. -/
def joinSep (sep : Str) : List Str → Str
  | [] => []
  | [x] => x
  | x :: xs => x ++ sep ++ joinSep sep xs

/-- One tag=value item of the signature header wire format. -/
def tagEq (t v : Str) : Str := t ++ '=' :: v

/-- Algorithm name on the wire. -/
def algoText (a : Int) : Str :=
  if a = SignRSASHA256 then ("rsa-sha256").toList else ("rsa-sha1").toList

/-- Canonicalization mode name on the wire. -/
def canonText (c : Int) : Str :=
  if c = CanonRELAXED then ("relaxed").toList else ("simple").toList

/-- Modelled from the spec: serialization of a SignatureHeader in the
fixed tag order of section 4.3 (codec in libopendkim, not under src/).
Tags are separated by a semicolon and a space; line folding and the
textual base64 armor of bh and b are elided, no claim depends on them. -/
def encodeSigHeader (sh : SignatureHeader) : Str :=
  joinSep (("; ").toList)
    ([ tagEq (("v").toList) sh.version,
       tagEq (("a").toList) (algoText sh.algo),
       tagEq (("c").toList) (canonText sh.hdrCanon ++ '/' :: canonText sh.bodyCanon),
       tagEq (("d").toList) sh.domain,
       tagEq (("s").toList) sh.selector,
       tagEq (("t").toList) (natToStr sh.timestamp) ]
     ++ (match sh.expiration with
         | some x => [tagEq (("x").toList) (natToStr x)]
         | none => [])
     ++ [ tagEq (("h").toList) (joinSep [':'] sh.signedHeaders) ]
     ++ (if sh.bodyLimit < 0 then []
         else [tagEq (("l").toList) (natToStr sh.bodyLimit.toNat)])
     ++ [ tagEq (("bh").toList) sh.bodyHash,
          tagEq (("b").toList) sh.sigValue ])

/-- The DKIM signature header field name as it appears on the wire. -/
def dkimSigFieldName : Str := ("DKIM-Signature").toList

/-- The DKIM signature header field name, lowercased. -/
def dkimSigName : Str := ("dkim-signature").toList

/-- The signature header as one header line of the outgoing message,
matching the line built by Dkim.Sign in src/dkim.go. -/
def sigHeaderLine (sh : SignatureHeader) : Str :=
  dkimSigFieldName ++ ':' :: ' ' :: encodeSigHeader sh

/-- The (lowercased, trimmed) field name of a header line. -/
def headerName (line : Str) : Str :=
  toLowerStr (trimWSP ((splitAtColon line).elim line (fun p => p.1)))

/-! ## Signed-header selection (spec section 3 invariant)

The i-th repetition of a name in the signed-header list selects the
i-th occurrence of that name counted from the bottom of the message. -/

/-- Find the first element satisfying the predicate and return it with
the remaining list. -/
def findRemove (p : α → Bool) : List α → Option (α × List α)
  | [] => none
  | x :: xs =>
    if p x then some (x, xs)
    else
      match findRemove p xs with
      | some (y, ys) => some (y, x :: ys)
      | none => none

/-- Worker for `selectSignedHeaders`: the remaining headers are kept
bottom-most first, and each name consumes its first (that is,
bottom-most unused) occurrence; a name with no matching header left
contributes nothing. -/
def selectGo : List Str → List Str → List Str
  | [], _ => []
  | n :: ns, rem =>
    match findRemove (fun h => headerName h == n) rem with
    | some (h, rem2) => h :: selectGo ns rem2
    | none => selectGo ns rem

/-- Modelled from the spec: resolve a signed-header-name list against
the received headers, the i-th repetition of a name taking the i-th
occurrence from the bottom of the message (selection logic in
libopendkim, not under src/). -/
def selectSignedHeaders (names : List Str) (headers : List Str) : List Str :=
  selectGo names headers.reverse

/-- Modelled from the spec: the final header-hash input — the selected
canonicalized signed header lines in order, followed by a canonicalized
version of the signature header itself with its signature value field
emptied (accumulator finalization in libopendkim, not under src/). -/
def headerHashInput (hc : Int) (lines : List Str) (sh : SignatureHeader) : Str :=
  (lines.map (canonHeader hc)).flatten
    ++ canonHeader hc (sigHeaderLine { sh with sigValue := [] })

/-! ## Signer (spec section 4.4) -/

/-- Configuration of a signing session, as created by NewSigner in
src/dkim.go: private key, selector, domain, canon modes, algorithm and
signed-byte limit, plus the creation timestamp injected by the engine. -/
structure SignerConfig where
  privKey : Str
  selector : Str
  domain : Str
  hdrCanon : Int
  bodyCanon : Int
  algo : Int
  bytesToSign : Int
  timestamp : Nat
deriving DecidableEq

/-- Modelled from the spec: the SignatureHeader of a finalized signing
session before the signature value is computed (signer in libopendkim,
not under src/).  The configured sign list is instantiated with the
default of signing every received header; names are listed in arrival
order. -/
def unsignedHeader (cfg : SignerConfig) (headers : List Str) (body : Str) : SignatureHeader :=
  { version := ("1").toList
    algo := cfg.algo
    hdrCanon := cfg.hdrCanon
    bodyCanon := cfg.bodyCanon
    domain := cfg.domain
    selector := cfg.selector
    timestamp := cfg.timestamp
    expiration := none
    signedHeaders := headers.map headerName
    bodyLimit := cfg.bytesToSign
    bodyHash := digest (bodyHashInput cfg.bodyCanon cfg.bytesToSign body)
    sigValue := [] }

/-- Modelled from the spec: produce the signature header for a message
(signer in libopendkim, not under src/).  The signed headers are
resolved with the same bottom-up occurrence selection the verifier
uses, hashed together with the unsigned signature header, and the
asymmetric-sign primitive fills the signature value. -/
def signMessage (cfg : SignerConfig) (headers : List Str) (body : Str) : SignatureHeader :=
  { unsignedHeader cfg headers body with
    sigValue := mkSig cfg.privKey
      (headerHashInput cfg.hdrCanon
        (selectSignedHeaders (headers.map headerName) headers)
        (unsignedHeader cfg headers body)) }

/-! ## Verifier (spec section 4.5) -/

/-- Body-hash comparison result of a verification. -/
inductive BodyHashResult
  | Match
  | Mismatch
deriving DecidableEq

/-- Modelled from the spec: a VerificationOutcome — the Sigflag bitset
(src/dkim.go constants), the body-hash comparison result when one was
computed, and the reported status. -/
structure VerificationOutcome where
  flags : Nat
  bodyHashResult : Option BodyHashResult
  status : Int
deriving DecidableEq

/-- A key resolver: selector and domain to key material plus the
test-key mark, or nothing when no key is available. -/
abbrev KeyResolver := Str → Str → Option (Str × Bool)

/-- Modelled from the spec: recompute the canonical body hash up to the
declared body-length limit and compare it against the signature header
(verifier in libopendkim, not under src/). -/
def bodyHashResultOf (sh : SignatureHeader) (body : Str) : BodyHashResult :=
  if digest (bodyHashInput sh.bodyCanon sh.bodyLimit body) = sh.bodyHash
  then BodyHashResult.Match else BodyHashResult.Mismatch

/-- Flag bitset of a completed verification: Processed and KeyLoaded
always, Passed only when the signature checked out and the body hash
matched, TestKey when the resolved key is marked as a test key. -/
def verifiedFlags (passed isTest : Bool) : Nat :=
  SigflagPROCESSED ||| SigflagKEYLOADED
    ||| (if passed then SigflagPASSED else 0)
    ||| (if isTest then SigflagTESTKEY else 0)

/-- Modelled from the spec: the verifier (in libopendkim, not under
src/).  Input is the received header lines, the parsed SignatureHeader
when the message carries one (section 4.5 phrases the verifier input
this way), and the body.  With no signature header the outcome carries
no flags and reports NoSig; otherwise the body hash is recompared, the
key resolved, the header hash recomputed from the received occurrences,
and Passed is set only if both the signature check succeeds and the
body hash matches. -/
def verifyMessage (resolver : KeyResolver) (headers : List Str)
    (parsedSig : Option SignatureHeader) (body : Str) : VerificationOutcome :=
  match parsedSig with
  | none => { flags := 0, bodyHashResult := none, status := StatusNOSIG }
  | some sh =>
    match resolver sh.selector sh.domain with
    | none =>
      { flags := 0, bodyHashResult := some (bodyHashResultOf sh body),
        status := StatusNOKEY }
    | some (key, isTest) =>
      let passed :=
        verifySig key
            (headerHashInput sh.hdrCanon
              (selectSignedHeaders sh.signedHeaders headers) sh)
            sh.sigValue
          && (bodyHashResultOf sh body == BodyHashResult.Match)
      { flags := verifiedFlags passed isTest,
        bodyHashResult := some (bodyHashResultOf sh body),
        status := if passed then StatusOK else StatusBADSIG }

/-! ## Session state machine (spec section 4.6) -/

/-- Lifecycle state of a session. -/
inductive LState
  | Created
  | CollectingHeaders
  | BodyPhase
  | Finalized
deriving DecidableEq

/-- Result of one session call. -/
inductive CallResult
  | ok
  | protocolMisuse
deriving DecidableEq

/-- Modelled from the spec: the per-session state the engine accumulates
(state machine in libopendkim, not under src/) — lifecycle state, the
header lines received in arrival order, and the raw body bytes whose
canonical form feeds the digest at finalization. -/
structure Session where
  lstate : LState
  headerLines : List Str
  bodyRaw : Str
deriving DecidableEq

/-- Modelled from the spec: the Header call of the session state machine
(in libopendkim, not under src/).  Valid only in Created or
CollectingHeaders; any other state is a protocol misuse that leaves the
session unchanged. -/
def Session.header (s : Session) (line : Str) : CallResult × Session :=
  match s.lstate with
  | LState.Created =>
    (CallResult.ok,
      { s with lstate := LState.CollectingHeaders, headerLines := s.headerLines ++ [line] })
  | LState.CollectingHeaders =>
    (CallResult.ok, { s with headerLines := s.headerLines ++ [line] })
  | _ => (CallResult.protocolMisuse, s)

/-- Modelled from the spec: the Eoh call (in libopendkim, not under
src/).  Valid only in CollectingHeaders; freezes the header set and
moves to BodyPhase. -/
def Session.eoh (s : Session) : CallResult × Session :=
  match s.lstate with
  | LState.CollectingHeaders => (CallResult.ok, { s with lstate := LState.BodyPhase })
  | _ => (CallResult.protocolMisuse, s)

/-- Modelled from the spec: the Body call (in libopendkim, not under
src/).  Valid only in BodyPhase, repeatable, appends the chunk; any
other state is a protocol misuse that leaves the session unchanged. -/
def Session.body (s : Session) (data : Str) : CallResult × Session :=
  match s.lstate with
  | LState.BodyPhase => (CallResult.ok, { s with bodyRaw := s.bodyRaw ++ data })
  | _ => (CallResult.protocolMisuse, s)

/-- Modelled from the spec: the Eom call (in libopendkim, not under
src/).  Valid only in BodyPhase; finalizes the session.  Hash
finalization and the dispatch to signer or verifier are modelled by
`signMessage` and `verifyMessage`. -/
def Session.eom (s : Session) : CallResult × Session :=
  match s.lstate with
  | LState.BodyPhase => (CallResult.ok, { s with lstate := LState.Finalized })
  | _ => (CallResult.protocolMisuse, s)

/-! ## The Go binding (src/dkim.go) -/

/-- Result of calling into a Go function that may panic instead of
returning: either the returned value or a runtime panic. -/
inductive GoCall (α : Type)
  | ret (a : α)
  | panicked
deriving DecidableEq

/-- Embedding of Dkim.Header from src/dkim.go (second variant, lines
545-548; the first variant at lines 161-169 wraps the same call and
differs only in the error formatting).  The Go code converts the line
to a byte slice and takes the address of element 0 before calling
dkim_header; on an empty slice that indexing operation panics at
runtime, so the status of the underlying call — abstracted here as the
`engine` parameter — is only reached for non-empty input.  The returned
value is the Go error: nothing on StatusOK, the status otherwise. -/
def Dkim.Header (engine : Str → Int) (line : Str) : GoCall (Option Int) :=
  match line with
  | [] => GoCall.panicked
  | _ :: _ =>
    let stat := engine line
    GoCall.ret (if stat = StatusOK then none else some stat)

/-- Embedding of Dkim.Body from src/dkim.go (lines 556-558): same
address-of-first-element marshalling as Dkim.Header, hence the same
panic on an empty byte slice. -/
def Dkim.Body (engine : Str → Int) (data : Str) : GoCall (Option Int) :=
  match data with
  | [] => GoCall.panicked
  | _ :: _ =>
    let stat := engine data
    GoCall.ret (if stat = StatusOK then none else some stat)

/-- Embedding of Dkim.Destroy from src/dkim.go (lines 612-625).  The
handle is the option: occupied before release, empty after.  When a
handle is present dkim_free runs — its status is the `freeStat`
parameter — and only a successful free clears the handle; when the
handle is already empty the call returns StatusOK without touching
anything. -/
def Dkim.Destroy (freeStat : Int) : Option Unit → Int × Option Unit
  | some h =>
    if freeStat = StatusOK then (StatusOK, none) else (freeStat, some h)
  | none => (StatusOK, none)

/-- One header line as Dkim.process in src/dkim.go rebuilds it from a
parsed key and value: key, colon, space, value. -/
def headerKeyLine (k v : Str) : Str := k ++ ':' :: ' ' :: v

/-- Embedding of the header-feeding loop of Dkim.process (src/dkim.go
lines 516-525).  Go iterates the parsed message header map with
`range`; the iteration order of a Go map is unspecified and randomized,
so the loop is modelled as a function of the key-group sequence the
iteration actually produced: for each key group, every value of that
key is fed in stored order. -/
def feedOrder (iter : List (Str × List Str)) : List Str :=
  (iter.map (fun kv => kv.2.map (headerKeyLine kv.1))).flatten

/-! ## Helper lemmas -/

theorem splitAtColon_append (pre rest : Str) (hp : ':' ∉ pre) :
    splitAtColon (pre ++ ':' :: rest) = some (pre, rest) := by
  induction pre with
  | nil => simp [splitAtColon]
  | cons c cs ih =>
    have hc : ¬(c = ':') := by
      intro h
      exact hp (by simp [h])
    have hcs : ':' ∉ cs := fun h => hp (List.mem_cons_of_mem _ h)
    simp [splitAtColon, hc, ih hcs]

theorem headerName_sigHeaderLine (sh : SignatureHeader) :
    headerName (sigHeaderLine sh) = dkimSigName := by
  unfold headerName sigHeaderLine
  rw [splitAtColon_append dkimSigFieldName (' ' :: encodeSigHeader sh) (by decide)]
  simp only [Option.elim]
  decide

theorem selectGo_skip (ns : List Str) (x : Str) (rem : List Str)
    (hx : ∀ n ∈ ns, (headerName x == n) = false) :
    selectGo ns (x :: rem) = selectGo ns rem := by
  induction ns generalizing rem with
  | nil => rfl
  | cons n ns ih =>
    have hn : (headerName x == n) = false := hx n (List.mem_cons_self n ns)
    have hns : ∀ m ∈ ns, (headerName x == m) = false :=
      fun m hm => hx m (List.mem_cons_of_mem n hm)
    simp only [selectGo, findRemove, hn, Bool.false_eq_true, if_false]
    cases hfr : findRemove (fun h => headerName h == n) rem with
    | none => exact ih rem hns
    | some p =>
      obtain ⟨y, ys⟩ := p
      exact congrArg (y :: ·) (ih ys hns)

theorem selectSigned_append (ns : List Str) (H : List Str) (x : Str)
    (hx : ∀ n ∈ ns, (headerName x == n) = false) :
    selectSignedHeaders ns (H ++ [x]) = selectSignedHeaders ns H := by
  unfold selectSignedHeaders
  rw [List.reverse_append]
  simp only [List.reverse_cons, List.reverse_nil, List.nil_append, List.singleton_append]
  exact selectGo_skip ns x H.reverse hx

theorem verifyMessage_some_resolved (resolver : KeyResolver) (hs : List Str) (b : Str)
    (sh : SignatureHeader) (key : Str) (isTest : Bool)
    (hres : resolver sh.selector sh.domain = some (key, isTest)) :
    verifyMessage resolver hs (some sh) b =
      { flags := verifiedFlags
          (verifySig key
              (headerHashInput sh.hdrCanon (selectSignedHeaders sh.signedHeaders hs) sh)
              sh.sigValue
            && (bodyHashResultOf sh b == BodyHashResult.Match)) isTest,
        bodyHashResult := some (bodyHashResultOf sh b),
        status :=
          if (verifySig key
                (headerHashInput sh.hdrCanon (selectSignedHeaders sh.signedHeaders hs) sh)
                sh.sigValue
              && (bodyHashResultOf sh b == BodyHashResult.Match))
          then StatusOK else StatusBADSIG } := by
  simp only [verifyMessage]
  rw [hres]

/-- A body made of nothing but blank lines: n CRLF terminators. -/
def blankBody (n : Nat) : Str := (List.replicate n crlf).flatten

theorem splitCRLF_blank (n : Nat) :
    splitCRLF (blankBody n) = List.replicate (n + 1) [] := by
  induction n with
  | zero => rfl
  | succ m ih =>
    show splitCRLF ('\r' :: '\n' :: blankBody m) = _
    show [] :: splitCRLF (blankBody m) = _
    rw [ih]
    rfl

theorem dropWhile_isEmpty_replicate (m : Nat) :
    (List.replicate m ([] : Str)).dropWhile List.isEmpty = [] := by
  induction m with
  | zero => rfl
  | succ k ih => simp [List.replicate_succ, List.dropWhile, ih]

theorem simpleBody_blank (n : Nat) : simpleBody (blankBody n) = [] := by
  unfold simpleBody dropTrailingEmpty
  rw [splitCRLF_blank, List.reverse_replicate, dropWhile_isEmpty_replicate]
  rfl

/-- Core of the sign/verify round trip: verification of the signed
header set plus the produced signature header succeeds, with body-hash
Match, for any presented body whose truncated canonical form equals the
signed one.  Both the round-trip claim and the canonicalization-
tolerance counterexample instantiate this. -/
theorem verify_of_same_canon (cfg : SignerConfig) (H : List Str) (B B2 : Str)
    (resolver : KeyResolver)
    (hres : resolver cfg.selector cfg.domain = some (cfg.privKey, false))
    (hn : ∀ h ∈ H, headerName h ≠ dkimSigName)
    (hcanon : bodyHashInput cfg.bodyCanon cfg.bytesToSign B2
      = bodyHashInput cfg.bodyCanon cfg.bytesToSign B) :
    ((verifyMessage resolver (H ++ [sigHeaderLine (signMessage cfg H B)])
        (some (signMessage cfg H B)) B2).flags &&& SigflagPASSED ≠ 0)
    ∧ (verifyMessage resolver (H ++ [sigHeaderLine (signMessage cfg H B)])
        (some (signMessage cfg H B)) B2).bodyHashResult = some BodyHashResult.Match := by
  set sh := signMessage cfg H B with hsh
  have hres2 : resolver sh.selector sh.domain = some (cfg.privKey, false) := hres
  have hname : ∀ n ∈ H.map headerName, (headerName (sigHeaderLine sh) == n) = false := by
    intro n hmem
    obtain ⟨h, hh, rfl⟩ := List.mem_map.mp hmem
    rw [headerName_sigHeaderLine]
    exact beq_eq_false_iff_ne.mpr (Ne.symm (hn h hh))
  have hsel : selectSignedHeaders sh.signedHeaders (H ++ [sigHeaderLine sh])
      = selectSignedHeaders (H.map headerName) H := by
    rw [show sh.signedHeaders = H.map headerName from rfl]
    exact selectSigned_append _ _ _ hname
  have hbh : bodyHashResultOf sh B2 = BodyHashResult.Match := by
    unfold bodyHashResultOf
    have hc : digest (bodyHashInput sh.bodyCanon sh.bodyLimit B2) = sh.bodyHash := hcanon
    exact if_pos hc
  have hsig : verifySig cfg.privKey
      (headerHashInput sh.hdrCanon
        (selectSignedHeaders sh.signedHeaders (H ++ [sigHeaderLine sh])) sh)
      sh.sigValue = true := by
    rw [hsel]
    unfold verifySig
    exact beq_self_eq_true _
  rw [verifyMessage_some_resolved resolver (H ++ [sigHeaderLine sh]) B2 sh cfg.privKey false hres2,
    hsig, hbh]
  exact ⟨by decide, rfl⟩

/-! ## Claims -/

/-- C1: for every message with headers H and body B, signing and then
verifying the message consisting of H plus the produced signature
header and body B yields an outcome with the Passed flag set and
body-hash result Match — given that the resolver hands back the signing
key for the configured selector and domain, and that no original header
is itself named dkim-signature. -/
theorem sign_verify_roundtrip (cfg : SignerConfig) (H : List Str) (B : Str)
    (resolver : KeyResolver)
    (hres : resolver cfg.selector cfg.domain = some (cfg.privKey, false))
    (hn : ∀ h ∈ H, headerName h ≠ dkimSigName) :
    ((verifyMessage resolver (H ++ [sigHeaderLine (signMessage cfg H B)])
        (some (signMessage cfg H B)) B).flags &&& SigflagPASSED ≠ 0)
    ∧ (verifyMessage resolver (H ++ [sigHeaderLine (signMessage cfg H B)])
        (some (signMessage cfg H B)) B).bodyHashResult = some BodyHashResult.Match :=
  verify_of_same_canon cfg H B B resolver hres hn rfl

/-- Concrete signing configuration used by the closed witnesses. -/
def rtCfg : SignerConfig :=
  { privKey := ("k").toList
    selector := ("sel").toList
    domain := ("ex.org").toList
    hdrCanon := CanonRELAXED
    bodyCanon := CanonRELAXED
    algo := SignRSASHA1
    bytesToSign := -1
    timestamp := 5 }

/-- Concrete headers used by the closed witnesses. -/
def rtHeaders : List Str := [("From: a@ex.org").toList, ("To: b@ex.net").toList]

/-- Concrete body used by the closed witnesses. -/
def rtBody : Str := ("hello\r\n").toList

/-- Resolver of the closed witnesses: always returns the signing key. -/
def rtResolver : KeyResolver := fun _ _ => some (("k").toList, false)

/-- C1 witness: the round trip at a concrete message. -/
theorem sign_verify_roundtrip_witness :
    ((verifyMessage rtResolver (rtHeaders ++ [sigHeaderLine (signMessage rtCfg rtHeaders rtBody)])
        (some (signMessage rtCfg rtHeaders rtBody)) rtBody).flags &&& SigflagPASSED ≠ 0)
    ∧ (verifyMessage rtResolver (rtHeaders ++ [sigHeaderLine (signMessage rtCfg rtHeaders rtBody)])
        (some (signMessage rtCfg rtHeaders rtBody)) rtBody).bodyHashResult
        = some BodyHashResult.Match :=
  sign_verify_roundtrip rtCfg rtHeaders rtBody rtResolver rfl (by decide)

/-- Body signed in the tampering counterexample: two spaces inside. -/
def cxBody : Str := ("a  b\r\n").toList

/-- Tampered body: the second space replaced by a tab — one byte
changed, canonical form (relaxed) unchanged. -/
def cxTamperedBody : Str := ("a \tb\r\n").toList

/-- Body whose canonical form really differs from cxBody. -/
def cxChangedBody : Str := ("a  c\r\n").toList

/-- Headers of the tampering counterexample. -/
def cxHeaders : List Str := [("From: a@ex.org").toList]

/-- C4 counterexample: changing exactly one body byte after signing
does not always flip the body hash to Mismatch — under relaxed body
canonicalization a one-byte whitespace change leaves the canonical body
intact, so verification still reports Match with Passed set. -/
theorem tamper_one_byte_counterexample :
    (cxTamperedBody.length = cxBody.length
      ∧ (cxBody.zip cxTamperedBody).countP (fun p => !(p.1 == p.2)) = 1)
    ∧ ((verifyMessage rtResolver (cxHeaders ++ [sigHeaderLine (signMessage rtCfg cxHeaders cxBody)])
        (some (signMessage rtCfg cxHeaders cxBody)) cxTamperedBody).flags &&& SigflagPASSED ≠ 0)
    ∧ (verifyMessage rtResolver (cxHeaders ++ [sigHeaderLine (signMessage rtCfg cxHeaders cxBody)])
        (some (signMessage rtCfg cxHeaders cxBody)) cxTamperedBody).bodyHashResult
        = some BodyHashResult.Match := by
  refine ⟨⟨by decide, by decide⟩, ?_, ?_⟩
  · exact (verify_of_same_canon rtCfg cxHeaders cxBody cxTamperedBody rtResolver rfl
      (by decide) (by decide)).1
  · exact (verify_of_same_canon rtCfg cxHeaders cxBody cxTamperedBody rtResolver rfl
      (by decide) (by decide)).2

/-- C4 (amended): changing body bytes after signing yields an outcome
with body-hash Mismatch and Passed unset — while Processed stays set,
the mismatch being a normally computed outcome — whenever the change
alters the canonical body truncated to the signed-byte limit (a change
the canonicalizer erases, such as one whitespace byte inside a run in
relaxed mode, keeps Match and Passed instead). -/
theorem tamper_changed_canon_mismatch (cfg : SignerConfig) (H : List Str) (B B2 : Str)
    (resolver : KeyResolver)
    (hres : resolver cfg.selector cfg.domain = some (cfg.privKey, false))
    (hdiff : bodyHashInput cfg.bodyCanon cfg.bytesToSign B2
      ≠ bodyHashInput cfg.bodyCanon cfg.bytesToSign B) :
    (verifyMessage resolver (H ++ [sigHeaderLine (signMessage cfg H B)])
        (some (signMessage cfg H B)) B2).bodyHashResult = some BodyHashResult.Mismatch
    ∧ (verifyMessage resolver (H ++ [sigHeaderLine (signMessage cfg H B)])
        (some (signMessage cfg H B)) B2).flags &&& SigflagPASSED = 0
    ∧ (verifyMessage resolver (H ++ [sigHeaderLine (signMessage cfg H B)])
        (some (signMessage cfg H B)) B2).flags &&& SigflagPROCESSED ≠ 0 := by
  set sh := signMessage cfg H B with hsh
  have hres2 : resolver sh.selector sh.domain = some (cfg.privKey, false) := hres
  have hbh : bodyHashResultOf sh B2 = BodyHashResult.Mismatch := by
    unfold bodyHashResultOf
    have hneq : ¬(digest (bodyHashInput sh.bodyCanon sh.bodyLimit B2) = sh.bodyHash) :=
      fun hcon => hdiff hcon
    exact if_neg hneq
  rw [verifyMessage_some_resolved resolver (H ++ [sigHeaderLine sh]) B2 sh cfg.privKey false hres2,
    hbh]
  rw [show (BodyHashResult.Mismatch == BodyHashResult.Match) = false from rfl, Bool.and_false]
  exact ⟨rfl, by decide, by decide⟩

/-- C4 witness: the amended statement at a concrete message whose
tampered body really changes the canonical form. -/
theorem tamper_changed_canon_mismatch_witness :
    (verifyMessage rtResolver (cxHeaders ++ [sigHeaderLine (signMessage rtCfg cxHeaders cxBody)])
        (some (signMessage rtCfg cxHeaders cxBody)) cxChangedBody).bodyHashResult
        = some BodyHashResult.Mismatch
    ∧ (verifyMessage rtResolver (cxHeaders ++ [sigHeaderLine (signMessage rtCfg cxHeaders cxBody)])
        (some (signMessage rtCfg cxHeaders cxBody)) cxChangedBody).flags &&& SigflagPASSED = 0
    ∧ (verifyMessage rtResolver (cxHeaders ++ [sigHeaderLine (signMessage rtCfg cxHeaders cxBody)])
        (some (signMessage rtCfg cxHeaders cxBody)) cxChangedBody).flags &&& SigflagPROCESSED ≠ 0 :=
  tamper_changed_canon_mismatch rtCfg cxHeaders cxBody cxChangedBody rtResolver rfl (by decide)

/-- C2: the header-feeding loop of Dkim.process iterates a Go map, and
Go leaves map iteration order unspecified.  Two legal iteration orders
of the same two-header message are permutations of each other yet feed
different header sequences to the engine, so the fed order is not the
message arrival order and two runs of Sign need not agree. -/
theorem feed_order_depends_on_map_iteration :
    List.Perm
      [(("B").toList, [("2").toList]), (("A").toList, [("1").toList])]
      [(("A").toList, [("1").toList]), (("B").toList, [("2").toList])]
    ∧ feedOrder [(("B").toList, [("2").toList]), (("A").toList, [("1").toList])]
      ≠ feedOrder [(("A").toList, [("1").toList]), (("B").toList, [("2").toList])] :=
  ⟨List.Perm.swap _ _ _, by decide⟩

/-- C3: in the session state machine, Body before Eoh (states Created
and CollectingHeaders) and Header after Eoh (states BodyPhase and
Finalized) fail with a protocol-misuse result and return the session —
lifecycle state, recorded header lines and digest input — unchanged. -/
theorem misuse_leaves_state_unchanged (s : Session) (data line : Str) :
    ((s.lstate = LState.Created ∨ s.lstate = LState.CollectingHeaders) →
      Session.body s data = (CallResult.protocolMisuse, s))
    ∧ ((s.lstate = LState.BodyPhase ∨ s.lstate = LState.Finalized) →
      Session.header s line = (CallResult.protocolMisuse, s)) := by
  obtain ⟨st, hl, br⟩ := s
  constructor
  · rintro (h | h) <;> (simp only [] at h; subst h; rfl)
  · rintro (h | h) <;> (simp only [] at h; subst h; rfl)

/-- C3 witness: a misuse call in a concrete session state. -/
theorem misuse_leaves_state_unchanged_witness :
    Session.body { lstate := LState.Created, headerLines := [], bodyRaw := [] } (("x").toList)
      = (CallResult.protocolMisuse,
        { lstate := LState.Created, headerLines := [], bodyRaw := [] })
    ∧ Session.header { lstate := LState.BodyPhase, headerLines := [], bodyRaw := [] }
        (("A: 1").toList)
      = (CallResult.protocolMisuse,
        { lstate := LState.BodyPhase, headerLines := [], bodyRaw := [] }) :=
  ⟨(misuse_leaves_state_unchanged _ (("x").toList) (("x").toList)).1 (Or.inl rfl),
   (misuse_leaves_state_unchanged _ (("A: 1").toList) (("A: 1").toList)).2 (Or.inl rfl)⟩

/-- C5: with an unbounded limit the whole canonical body is hashed;
with limit N exactly the first N canonical bytes are hashed; and a
verifier honoring the parsed limit hashes the same N canonical bytes
for any received body — longer or not — whose canonical form agrees on
those first N bytes. -/
theorem signed_byte_limit (mode : Int) (b longer : Str) (N : Nat) :
    bodyHashInput mode (-1) b = canonBody mode b
    ∧ bodyHashInput mode ((N : Nat) : Int) b = (canonBody mode b).take N
    ∧ ((canonBody mode longer).take N = (canonBody mode b).take N →
      bodyHashInput mode ((N : Nat) : Int) longer = bodyHashInput mode ((N : Nat) : Int) b) := by
  refine ⟨?_, ?_, ?_⟩
  · simp [bodyHashInput]
  · simp [bodyHashInput]
  · intro h
    simp [bodyHashInput, h, show ¬((N : Int) < 0) from Int.not_lt.mpr (Int.natCast_nonneg N)]

/-- C5 witness: the limit semantics at a concrete short and long body. -/
theorem signed_byte_limit_witness :
    bodyHashInput CanonRELAXED (-1) (("ab\r\n").toList)
      = canonBody CanonRELAXED (("ab\r\n").toList)
    ∧ bodyHashInput CanonRELAXED ((2 : Nat) : Int) (("ab\r\n").toList)
      = (canonBody CanonRELAXED (("ab\r\n").toList)).take 2
    ∧ bodyHashInput CanonRELAXED ((2 : Nat) : Int) (("ab\r\nmore\r\n").toList)
      = bodyHashInput CanonRELAXED ((2 : Nat) : Int) (("ab\r\n").toList) := by
  have h := signed_byte_limit CanonRELAXED (("ab\r\n").toList) (("ab\r\nmore\r\n").toList) 2
  exact ⟨h.1, h.2.1, h.2.2 (by decide)⟩

/-- C6: relaxed header canonicalization lowercases the field name,
collapses the whitespace runs of the value, strips the value ends and
terminates with CRLF on the given example. -/
theorem relaxed_header_canon_example :
    relaxedHeader (("Subject:  Hello   World  \r\n").toList)
      = ("subject:Hello World\r\n").toList := by decide

/-- C7: simple body canonicalization drops trailing blank lines on the
given example, and maps every body consisting only of blank lines —
the empty body included — to the empty string. -/
theorem simple_body_canon_examples :
    simpleBody (("abc\r\n\r\n\r\n").toList) = ("abc\r\n").toList
    ∧ ∀ n : Nat, simpleBody (blankBody n) = [] :=
  ⟨by decide, simpleBody_blank⟩

/-- C8: a message with no signature header verifies to an outcome that
reports NoSig and has no outcome flag set. -/
theorem no_signature_outcome (resolver : KeyResolver) (H : List Str) (B : Str) :
    (verifyMessage resolver H none B).status = StatusNOSIG
    ∧ (verifyMessage resolver H none B).flags = 0
    ∧ ∀ flag : Nat, (verifyMessage resolver H none B).flags &&& flag = 0 :=
  ⟨rfl, rfl, fun flag => Nat.zero_and flag⟩

/-- C9: a second Destroy after a successful Destroy returns success and
leaves the already-released handle unchanged, whatever status a further
dkim_free call would have had. -/
theorem destroy_after_destroy (f g : Int) (st st2 : Option Unit)
    (h : Dkim.Destroy f st = (StatusOK, st2)) :
    Dkim.Destroy g st2 = (StatusOK, st2) := by
  cases st with
  | none =>
    simp only [Dkim.Destroy, Prod.mk.injEq] at h
    rw [← h.2]
    rfl
  | some u =>
    simp only [Dkim.Destroy] at h
    by_cases hf : f = StatusOK
    · rw [if_pos hf, Prod.mk.injEq] at h
      rw [← h.2]
      rfl
    · rw [if_neg hf, Prod.mk.injEq] at h
      exact absurd h.1 hf

/-- C9 witness: releasing a live handle and destroying again. -/
theorem destroy_after_destroy_witness :
    Dkim.Destroy 0 none = (StatusOK, none) :=
  destroy_after_destroy 0 0 (some ()) none (by decide)

/-- C10: the Go binding's Header and Body take the address of element 0
of the converted byte slice, so with empty input they panic at runtime
instead of reaching the declared error branch — no status, success or
error, is ever returned for empty input. -/
theorem empty_input_panics (engineH engineB : Str → Int) :
    Dkim.Header engineH [] = GoCall.panicked
    ∧ Dkim.Body engineB [] = GoCall.panicked
    ∧ (∀ e : Option Int, Dkim.Header engineH [] ≠ GoCall.ret e)
    ∧ (∀ e : Option Int, Dkim.Body engineB [] ≠ GoCall.ret e) := by
  refine ⟨rfl, rfl, fun e h => ?_, fun e h => ?_⟩
  · exact GoCall.noConfusion h
  · exact GoCall.noConfusion h

end OpenDkim
